import Mathlib

/-!
Shallow embedding of `keras_autodoc/autogen.py` (class `DocumentationGenerator`).

Python objects reachable from the manifest are modelled by `PyVal`; live
reflected objects (functions, methods, classes, property descriptors) by
`PyObject`.  The collaborator modules (`utils`, `get_signatures`,
`docstring`, `examples`) are not part of the sources; following the spec
they are external collaborators, so they are modelled as an environment
`Env` of function parameters, and every theorem quantifies over the
environment.  Filesystem effects of `generate` are modelled as an ordered
trace of operations (`FsOp`).
-/

/-- Reflection data of a plain function or method: its dunder name, the
result of `inspect.getdoc` on it, and its `typing.get_type_hints` mapping. -/
structure FuncData where
  name : String
  doc : Option String
  hints : List (String × String)
deriving DecidableEq, Repr

/-- Reflection data of a class: name, docstring, the type hints of the class
object itself and, separately, the type hints of its `__init__` method. -/
structure ClassData where
  name : String
  doc : Option String
  clsHints : List (String × String)
  initHints : List (String × String)
deriving DecidableEq, Repr

/-- A live Python object as the generator distinguishes them:
`utils.ismethod` is true exactly on `method`, `isinstance(-, property)`
exactly on `prop` (whose payload is the getter `fget`), `inspect.isclass`
exactly on `cls`; everything else callable is `func`. -/
inductive PyObject where
  | func (f : FuncData)
  | method (f : FuncData)
  | cls (c : ClassData)
  | prop (fget : FuncData)
deriving DecidableEq, Repr

/-- A Python value as it can appear in the `pages` manifest or in
`extra_aliases`: `None`, an int, a string, a live object, a list, or a
string-keyed dict (kept as an ordered association list, mirroring Python
dict insertion order). -/
inductive PyVal where
  | pnone
  | pint (n : Int)
  | pstr (s : String)
  | pobj (o : PyObject)
  | plist (l : List PyVal)
  | pdict (d : List (String × PyVal))

/-- Python exceptions the embedded code can raise. -/
inductive PyError where
  | typeError (msg : String)
  | importError (msg : String)
  | attributeError (msg : String)
deriving DecidableEq, Repr

/-- Filesystem side effects of `generate`, in the order they are performed. -/
inductive FsOp where
  | rmtree (dir : String)
  | copytree (src dst : String)
  | insert (text : String) (path : String) (tag : String)
  | copyExamples (src dst : String)
deriving DecidableEq, Repr

/-- The external collaborator functions consumed by `autogen.py`
(`utils.import_object` on strings, `get_signatures.get_signature`,
`utils.make_source_link`, `utils.code_snippet`,
`docstring.process_docstring`, `utils.get_dotted_path`).  They live outside
the sources, so they are opaque parameters of the development. -/
structure Env where
  resolve : String → Except PyError PyObject
  get_signature : PyObject → Option String → Nat → String
  make_source_link : PyObject → String → String
  code_snippet : String → String
  process_docstring_ext : String → List (String × String) → List (String × PyVal) → String
  get_dotted_path : PyObject → String

/-- The attribute state of a `DocumentationGenerator` instance
(`self.pages`, `self.project_url`, `self.template_dir`, `self.examples_dir`,
`self.class_aliases`, `self.max_signature_line_length`, `self.titles_size`). -/
structure GenState where
  pages : List (String × PyVal)
  project_url : Option String
  template_dir : Option String
  examples_dir : Option String
  class_aliases : List (String × PyVal)
  max_signature_line_length : Nat
  titles_size : String

/-- Constructor arguments of `DocumentationGenerator.__init__`. -/
structure Config where
  pages : List (String × PyVal)
  project_url : Option String
  template_dir : Option String
  examples_dir : Option String
  extra_aliases : PyVal
  max_signature_line_length : Nat
  titles_size : String

/-- The `__name__` attribute of a reflected object (for a property this
would raise in Python; the generator only reads `__name__` after replacing
a property by its getter, so the `prop` case is never consulted). -/
def pyName : PyObject → String
  | .func f => f.name
  | .method f => f.name
  | .cls c => c.name
  | .prop f => f.name

/-- Model of `inspect.getdoc`. -/
def getdoc : PyObject → Option String
  | .func f => f.doc
  | .method f => f.doc
  | .cls c => c.doc
  | .prop f => f.doc

/-- Boolean form of `utils.ismethod`. -/
def ismethodB : PyObject → Bool
  | .method _ => true
  | _ => false

/-- Boolean form of `isinstance(-, property)`. -/
def ispropertyB : PyObject → Bool
  | .prop _ => true
  | _ => false

/-- Python truthiness of an optional string (`None` and the empty string
are falsy). -/
def optStrTruthy : Option String → Bool
  | none => false
  | some s => !(s == "")

/-- A single apostrophe character, as used by Python `type(...)` reprs. -/
def pyQuote : String := String.singleton (Char.ofNat 39)

/-- Python `type(v)` as it prints inside the TypeError message, e.g.
`<class `int`>` with apostrophes around the type name. -/
def pyTypeName : PyVal → String
  | .pnone => "<class " ++ pyQuote ++ "NoneType" ++ pyQuote ++ ">"
  | .pint _ => "<class " ++ pyQuote ++ "int" ++ pyQuote ++ ">"
  | .pstr _ => "<class " ++ pyQuote ++ "str" ++ pyQuote ++ ">"
  | .plist _ => "<class " ++ pyQuote ++ "list" ++ pyQuote ++ ">"
  | .pdict _ => "<class " ++ pyQuote ++ "dict" ++ pyQuote ++ ">"
  | .pobj (.func _) => "<class " ++ pyQuote ++ "function" ++ pyQuote ++ ">"
  | .pobj (.method _) => "<class " ++ pyQuote ++ "function" ++ pyQuote ++ ">"
  | .pobj (.cls _) => "<class " ++ pyQuote ++ "type" ++ pyQuote ++ ">"
  | .pobj (.prop _) => "<class " ++ pyQuote ++ "property" ++ pyQuote ++ ">"

/-- Python `str(v)` for the values that can reach the TypeError message.
Atoms are rendered exactly as Python does; the container cases recurse the
same way (`repr` of the parts joined inside brackets). -/
def pyRepr : PyVal → String
  | .pnone => "None"
  | .pint n => toString n
  | .pstr s => pyQuote ++ s ++ pyQuote
  | .pobj o => "<" ++ pyName o ++ ">"
  | .plist l =>
      "[" ++ String.intercalate ", " (l.attach.map (fun e => pyRepr e.1)) ++ "]"
  | .pdict d =>
      "\x7b" ++
        String.intercalate ", "
          (d.attach.map
            (fun kv => pyQuote ++ kv.1.1 ++ pyQuote ++ ": " ++ pyRepr kv.1.2)) ++
      "\x7d"
decreasing_by
  · have := List.sizeOf_lt_of_mem e.2
    simp only [PyVal.plist.sizeOf_spec]
    omega
  · have h1 := List.sizeOf_lt_of_mem kv.2
    have h2 : sizeOf kv.1.2 < sizeOf kv.1 := by
      cases _h : kv.1; simp
    simp only [PyVal.pdict.sizeOf_spec]
    omega

/-- The message of the TypeError raised by `generate` on a manifest value
that is neither a list nor a dict (autogen.py lines 96 to 102). -/
def typeMismatchMsg (v : PyVal) : String :=
  "Expected list of elements to be documented, is of type " ++
    pyTypeName v ++ ": " ++ pyRepr v

/-- Python dict assignment `d[k] = v` on an ordered association list: if the
key is present its value is replaced in place, otherwise the pair is
appended at the end (dict insertion order). -/
def dictInsert (d : List (String × PyVal)) (k : String) (v : PyVal) :
    List (String × PyVal) :=
  if (d.find? (fun kv => kv.1 == k)).isSome then
    d.map (fun kv => if kv.1 == k then (k, v) else kv)
  else
    d ++ [(k, v)]

/-- Python dict lookup `d.get(k)`. -/
def dictLookup (d : List (String × PyVal)) (k : String) : Option PyVal :=
  (d.find? (fun kv => kv.1 == k)).map (fun kv => kv.2)

/-- Python `d1.update(d2)`: assign every pair of `d2` into `d1` in order. -/
def dictUpdate (al : List (String × PyVal)) :
    List (String × PyVal) → List (String × PyVal)
  | [] => al
  | kv :: rest => dictUpdate (dictInsert al kv.1 kv.2) rest

/-- Python iteration `list(iter(v))`: a list yields its items, a string its
one-character substrings, a dict its keys; ints, `None` and live objects
are not iterable and raise TypeError. -/
def pyIter : PyVal → Except PyError (List PyVal)
  | .plist l => .ok l
  | .pstr s => .ok (s.toList.map (fun c => .pstr (String.singleton c)))
  | .pdict d => .ok (d.map (fun kv => .pstr kv.1))
  | v => .error (.typeError (pyTypeName v ++ " object is not iterable"))

/-- The `list_elements += element` loop of `_fill_aliases` over the values
of a dict-valued page (autogen.py lines 169 to 171). -/
def collectFromDict (acc : List PyVal) :
    List (String × PyVal) → Except PyError (List PyVal)
  | [] => .ok acc
  | kv :: rest =>
      match pyIter kv.2 with
      | .error er => .error er
      | .ok items => collectFromDict (acc ++ items) rest

/-- The elements `_fill_aliases` iterates over for one page value
(autogen.py lines 166 to 173): a dict page is flattened one level by
concatenating its values; any other value is iterated directly by the
`for element_as_str in list_elements` loop. -/
def collectListElements : PyVal → Except PyError (List PyVal)
  | .pdict d => collectFromDict [] d
  | v => pyIter v

/-- Modelled from the spec: `utils.import_object` is not part of the
sources.  Per the Symbol Resolver contract, a dotted-path string is
resolved to a live object (failing with an import error when a segment
does not resolve) and a non-string input is returned unchanged. -/
def import_object (env : Env) : PyVal → Except PyError PyVal
  | .pstr s => (env.resolve s).map PyVal.pobj
  | v => .ok v

/-- Modelled from the spec: `utils.get_dotted_path` is not part of the
sources; it reads the canonical dotted path of a live object from its
module and name attributes, so a non-object argument raises
AttributeError. -/
def get_dotted_path_val (env : Env) : PyVal → Except PyError String
  | .pobj o => .ok (env.get_dotted_path o)
  | _ => .error (.attributeError "object has no attribute __module__")

/-- The inner loop of `_fill_aliases` (autogen.py lines 174 to 179): import
each element, skip non-classes, and record canonical path to original
reference. -/
def fillFromElements (env : Env) (al : List (String × PyVal)) :
    List PyVal → Except PyError (List (String × PyVal))
  | [] => .ok al
  | e :: rest =>
      match import_object env e with
      | .error er => .error er
      | .ok (.pobj (.cls c)) =>
          fillFromElements env
            (dictInsert al (env.get_dotted_path (.cls c)) e) rest
      | .ok _ => fillFromElements env al rest

/-- The outer loop of `_fill_aliases` over `self.pages.values()`
(autogen.py lines 166 to 179). -/
def fillFromPages (env : Env) (al : List (String × PyVal)) :
    List (String × PyVal) → Except PyError (List (String × PyVal))
  | [] => .ok al
  | p :: rest =>
      match collectListElements p.2 with
      | .error er => .error er
      | .ok les =>
          match fillFromElements env al les with
          | .error er => .error er
          | .ok al2 => fillFromPages env al2 rest

/-- The `extra_aliases` list branch of `_fill_aliases` (autogen.py lines
183 to 186). -/
def fillFromExtraList (env : Env) (al : List (String × PyVal)) :
    List PyVal → Except PyError (List (String × PyVal))
  | [] => .ok al
  | a :: rest =>
      match import_object env a with
      | .error er => .error er
      | .ok obj =>
          match get_dotted_path_val env obj with
          | .error er => .error er
          | .ok p => fillFromExtraList env (dictInsert al p a) rest

/-- `DocumentationGenerator._fill_aliases` (autogen.py lines 165 to 186),
starting from the empty `self.class_aliases` set up by `__init__`. -/
def fill_aliases (env : Env) (pages : List (String × PyVal)) (extra : PyVal) :
    Except PyError (List (String × PyVal)) :=
  match fillFromPages env [] pages with
  | .error er => .error er
  | .ok al =>
      match extra with
      | .pdict d => .ok (dictUpdate al d)
      | .plist l => fillFromExtraList env al l
      | _ => .ok al

/-- `DocumentationGenerator.__init__` (autogen.py lines 51 to 66): stores
the configuration and builds `self.class_aliases` by `_fill_aliases`. -/
def DocumentationGenerator.init (env : Env) (cfg : Config) :
    Except PyError GenState :=
  match fill_aliases env cfg.pages cfg.extra_aliases with
  | .error er => .error er
  | .ok al =>
      .ok { pages := cfg.pages
            project_url := cfg.project_url
            template_dir := cfg.template_dir
            examples_dir := cfg.examples_dir
            class_aliases := al
            max_signature_line_length := cfg.max_signature_line_length
            titles_size := cfg.titles_size }

/-- The object whose docstring and type hints are consulted: a property is
replaced by its getter (`object_ = object_.fget`, autogen.py line 152);
every other object is kept. -/
def pyEffective : PyObject → PyObject
  | .prop f => .func f
  | o => o

/-- The `subblocks` list built by `_render_from_object` (autogen.py lines
136 to 162): an optional source link (using the getter for a property), a
heading from the title marker and `__name__` plus a signature code snippet
for a non-property (only the heading for a property), and, when the
docstring is truthy, the processed docstring with the type hints of
`__init__` for a class and of the object itself otherwise.  The
`process_signature` hook is the default identity. -/
def renderSubblocks (env : Env) (st : GenState) (o : PyObject)
    (ov : Option String) : List String :=
  let sourceLinkBlocks : List String :=
    match st.project_url with
    | some u =>
        match o with
        | .prop f => [env.make_source_link (.func f) u]
        | _ => [env.make_source_link o u]
    | none => []
  let signature := env.get_signature o ov st.max_signature_line_length
  let headBlocks : List String :=
    match o with
    | .prop f => [st.titles_size ++ " " ++ f.name ++ "\n"]
    | _ => [st.titles_size ++ " " ++ pyName o ++ "\n", env.code_snippet signature]
  let obj2 := pyEffective o
  let docBlocks : List String :=
    match getdoc obj2 with
    | some ds =>
        if ds == "" then []
        else
          let type_hints :=
            match obj2 with
            | .cls c => c.initHints
            | .func f => f.hints
            | .method f => f.hints
            | .prop f => f.hints
          [env.process_docstring_ext ds type_hints st.class_aliases]
    | none => []
  sourceLinkBlocks ++ headBlocks ++ docBlocks

/-- `DocumentationGenerator._render_from_object` (autogen.py line 163):
join the subblocks with blank lines and terminate with a horizontal rule. -/
def render_from_object (env : Env) (st : GenState) (o : PyObject)
    (ov : Option String) : String :=
  String.intercalate "\n\n" (renderSubblocks env st o ov) ++ "\n\n----\n\n"

/-- Python `s.split` at a single dot separator: accumulate the current
segment and start a new one at every dot (so `a.b.c` gives `a`, `b`, `c`
and the empty string splits to one empty segment), exactly as
`element.split` with a dot argument behaves in Python. -/
def splitDotAux (cur : String) : List Char → List String
  | [] => [cur]
  | c :: cs =>
      if c == '.' then cur :: splitDotAux "" cs
      else splitDotAux (cur.push c) cs

/-- Python `element.split` at dots, on a string. -/
def splitDot (s : String) : List String := splitDotAux "" s.data

/-- Lines 117 to 126 of `_render`: a string element is resolved, and the
signature display override is the last two dotted segments when the
resolved object is a method or a property, the whole string otherwise; a
non-string element is used as the object itself with no override. -/
def resolveElement (env : Env) : PyVal → Except PyError (PyVal × Option String)
  | .pstr s =>
      match env.resolve s with
      | .error er => .error er
      | .ok o =>
          let parts := splitDot s
          let ov :=
            if ismethodB o || ispropertyB o then
              String.intercalate "." (parts.drop (parts.length - 2))
            else s
          .ok (.pobj o, some ov)
  | v => .ok (v, none)

/-- `DocumentationGenerator._render` (autogen.py lines 116 to 128).  A
non-object element (an int, a list, ...) has no `__name__` and makes the
reflection helpers fail; this is modelled as an AttributeError. -/
def render (env : Env) (st : GenState) (e : PyVal) : Except PyError String :=
  match resolveElement env e with
  | .error er => .error er
  | .ok (.pobj o, ov) => .ok (render_from_object env st o ov)
  | .ok (v, _) =>
      .error (.attributeError (pyTypeName v ++ " object has no attribute __name__"))

/-- The accumulation loop of `_render_list_and_insert` (autogen.py lines
131 to 133): `markdown_text += self._render(element)`. -/
def renderListText (env : Env) (st : GenState) (acc : String) :
    List PyVal → Except PyError String
  | [] => .ok acc
  | e :: rest =>
      match render env st e with
      | .error er => .error er
      | .ok t => renderListText env st (acc ++ t) rest

/-- `DocumentationGenerator._render_list_and_insert` (autogen.py lines 130
to 134) as a trace: on success one `insert_in_file` call with the
concatenated markdown, on failure no filesystem effect and the error. -/
def render_list_and_insert (env : Env) (st : GenState)
    (element_list : List PyVal) (file_path : String) (tag : String) :
    List FsOp × Option PyError :=
  match renderListText env st "" element_list with
  | .ok text => ([.insert text file_path tag], none)
  | .error e => ([], some e)

/-- The inner loop of `generate` over a dict-valued page (autogen.py lines
91 to 98): each tag whose value is a list is rendered and inserted at that
tag; a non-list tag value raises the TypeError of lines 96 to 98. -/
def processTags (env : Env) (st : GenState) (path : String) :
    List (String × PyVal) → List FsOp × Option PyError
  | [] => ([], none)
  | (tag, gv) :: rest =>
      match gv with
      | .plist l =>
          match render_list_and_insert env st l path tag with
          | (ops, some e) => (ops, some e)
          | (ops, none) =>
              let r := processTags env st path rest
              (ops ++ r.1, r.2)
      | v => ([], some (.typeError (typeMismatchMsg v)))

/-- One iteration of the page loop of `generate` (autogen.py lines 87 to
102): a list value is rendered and inserted at the default tag
`autogenerated`, a dict value is handled tag by tag, and any other value
raises the TypeError of lines 100 to 102. -/
def processPage (env : Env) (st : GenState) (dest : String) (fp : String)
    (v : PyVal) : List FsOp × Option PyError :=
  match v with
  | .plist l => render_list_and_insert env st l (dest ++ "/" ++ fp) "autogenerated"
  | .pdict d => processTags env st (dest ++ "/" ++ fp) d
  | v => ([], some (.typeError (typeMismatchMsg v)))

/-- The page loop of `generate` in manifest order: effects of a failing
page are kept, later pages are not reached. -/
def runPages (env : Env) (st : GenState) (dest : String) :
    List (String × PyVal) → List FsOp × Option PyError
  | [] => ([], none)
  | p :: rest =>
      match processPage env st dest p.1 p.2 with
      | (ops, some e) => (ops, some e)
      | (ops, none) =>
          let r := runPages env st dest rest
          (ops ++ r.1, r.2)

/-- `DocumentationGenerator.generate` (autogen.py lines 68 to 105) as a
state transformer with a filesystem trace: remove the destination when it
exists, copy the template directory when it is truthy, process the pages in
manifest order, and finally copy the examples when `examples_dir` is not
`None` and no error occurred (an exception propagates immediately).  No
attribute of `self` is assigned, so the post state is the input state. -/
def generate (env : Env) (st : GenState) (destExists : Bool) (dest : String) :
    GenState × List FsOp × Option PyError :=
  let cleanupOps := if destExists then [FsOp.rmtree dest] else []
  let templateOps :=
    match st.template_dir with
    | some t => if t == "" then [] else [FsOp.copytree t dest]
    | none => []
  let r := runPages env st dest st.pages
  let exampleOps :=
    match r.2, st.examples_dir with
    | none, some ex => [FsOp.copyExamples ex (dest ++ "/examples")]
    | _, _ => []
  (st, cleanupOps ++ templateOps ++ r.1 ++ exampleOps, r.2)

/-- Decidable prefix test on character lists. -/
def hasPre : List Char → List Char → Bool
  | _, [] => true
  | [], _ :: _ => false
  | c :: cs, p :: ps => c == p && hasPre cs ps

/-- Decidable substring test on character lists: the pattern is a prefix of
some suffix. -/
def containsSub (pat : List Char) : List Char → Bool
  | [] => hasPre [] pat
  | c :: cs => hasPre (c :: cs) pat || containsSub pat cs

/-- Decidable substring test on strings. -/
def strContains (s pat : String) : Bool := containsSub pat.data s.data

/-- Decidable suffix test on strings. -/
def strEndsWith (s suf : String) : Bool := hasPre s.data.reverse suf.data.reverse

/-- A trivial concrete collaborator environment, used to instantiate the
universally quantified theorems at concrete inputs. -/
def envTriv : Env :=
  { resolve := fun s => .error (.importError s)
    get_signature := fun _ _ _ => ""
    make_source_link := fun _ _ => ""
    code_snippet := fun s => s
    process_docstring_ext := fun d _ _ => d
    get_dotted_path := fun _ => ""}

/-- A generator state over given pages with all optional configuration
left at `None` and the documented defaults. -/
def stOfPages (ps : List (String × PyVal)) : GenState :=
  { pages := ps
    project_url := none
    template_dir := none
    examples_dir := none
    class_aliases := []
    max_signature_line_length := 110
    titles_size := "###"}

/-- Boolean `isinstance(v, list)`. -/
def isListB : PyVal → Bool
  | .plist _ => true
  | _ => false

/-- Boolean `isinstance(v, dict)`. -/
def isDictB : PyVal → Bool
  | .pdict _ => true
  | _ => false

lemma hasPre_append (p r : List Char) : hasPre (p ++ r) p = true := by
  induction p with
  | nil => simp [hasPre]
  | cons c cs ih => simp [hasPre, ih]

lemma containsSub_of_hasPre {p s : List Char} (h : hasPre s p = true) :
    containsSub p s = true := by
  cases s with
  | nil => simpa [containsSub] using h
  | cons c cs => simp [containsSub, h]

lemma containsSub_append (p x y : List Char) :
    containsSub p (x ++ (p ++ y)) = true := by
  induction x with
  | nil => exact containsSub_of_hasPre (hasPre_append p y)
  | cons c cs ih => simp [containsSub, ih]

lemma strContains_append_mid (a p b : String) :
    strContains (a ++ (p ++ b)) p = true := by
  unfold strContains
  rw [String.data_append, String.data_append]
  exact containsSub_append p.data a.data b.data

lemma strContains_append_right (a p : String) :
    strContains (a ++ p) p = true := by
  have h := strContains_append_mid a p ""
  simpa using h

lemma strEndsWith_append (a suf : String) :
    strEndsWith (a ++ suf) suf = true := by
  unfold strEndsWith
  rw [String.data_append, List.reverse_append]
  exact hasPre_append suf.data.reverse a.data.reverse

lemma strContains_append_mid2 (a p b : String) :
    strContains ((a ++ p) ++ b) p = true := by
  rw [String.append_assoc]
  exact strContains_append_mid a p b

/-- C1 (counterexample): for the manifest assigning the int `42` to the
page `a.md`, `generate` raises a TypeError whose message does not mention
the offending file path `a.md` at all, while it does name the offending
value `42`.  This refutes the claim that the message names the file path. -/
theorem claim1_counterexample :
    (generate envTriv (stOfPages [("a.md", .pint 42)]) false "dest").2 =
      ([], some (.typeError (typeMismatchMsg (.pint 42))))
    ∧ strContains (typeMismatchMsg (.pint 42)) "a.md" = false
    ∧ strContains (typeMismatchMsg (.pint 42)) "42" = true := by
  refine ⟨rfl, ?_, ?_⟩ <;> (simp only [typeMismatchMsg, pyRepr]; decide)

/-- C1 (amended): for every manifest value that is neither a list nor a
mapping (and for every mapping whose leaf value is not a list), `generate`
raises a TypeError whose message names the offending value's type and the
offending value itself; the file path does not appear in the message. -/
theorem claim1_type_mismatch (env : Env) (st : GenState) (destExists : Bool)
    (dest fp tag : String) (v gv : PyVal)
    (hv : (isListB v || isDictB v) = false)
    (hgv : isListB gv = false) :
    processPage env st dest fp v = ([], some (.typeError (typeMismatchMsg v)))
    ∧ processTags env st (dest ++ "/" ++ fp) [(tag, gv)] =
        ([], some (.typeError (typeMismatchMsg gv)))
    ∧ (generate env { st with pages := [(fp, v)] } destExists dest).2.2 =
        some (.typeError (typeMismatchMsg v))
    ∧ strContains (typeMismatchMsg v) (pyRepr v) = true
    ∧ strContains (typeMismatchMsg v) (pyTypeName v) = true := by
  refine ⟨?_, ?_, ?_, ?_, ?_⟩
  · cases v <;> simp_all [isListB, isDictB, processPage]
  · cases gv <;> simp_all [isListB, processTags]
  · cases v <;> simp_all [isListB, isDictB, generate, runPages, processPage]
  · exact strContains_append_right _ _
  · rw [typeMismatchMsg, String.append_assoc]
    exact strContains_append_mid2 _ _ _

/-- Witness for C1 (amended) at the concrete value `42`. -/
theorem claim1_type_mismatch_witness :
    processPage envTriv (stOfPages []) "dest" "a.md" (.pint 42) =
      ([], some (.typeError (typeMismatchMsg (.pint 42)))) :=
  (claim1_type_mismatch envTriv (stOfPages []) false "dest" "a.md" "t"
    (.pint 42) (.pstr "x") rfl rfl).1

lemma runPages_append_ok (env : Env) (st : GenState) (dest : String)
    (p1 p2 : List (String × PyVal)) (ops : List FsOp)
    (h : runPages env st dest p1 = (ops, none)) :
    runPages env st dest (p1 ++ p2) =
      (ops ++ (runPages env st dest p2).1, (runPages env st dest p2).2) := by
  induction p1 generalizing ops with
  | nil =>
      simp only [runPages] at h
      cases h
      simp
  | cons p rest ih =>
      rw [List.cons_append]
      simp only [runPages] at h ⊢
      rcases hp : processPage env st dest p.1 p.2 with ⟨ops0, e0⟩
      rw [hp] at h
      cases e0 with
      | some e => exact absurd (congrArg Prod.snd h) (by simp)
      | none =>
          simp only at h ⊢
          rcases hr : runPages env st dest rest with ⟨ops1, e1⟩
          rw [hr] at h
          obtain ⟨hops, he⟩ := Prod.mk.injEq .. ▸ h
          cases e1 with
          | some e => exact absurd he (by simp)
          | none =>
              rw [ih ops1 hr]
              simp [← hops, List.append_assoc]

lemma runPages_append_error (env : Env) (st : GenState) (dest : String)
    (p1 p2 : List (String × PyVal)) (ops : List FsOp) (e : PyError)
    (h : runPages env st dest p1 = (ops, some e)) :
    runPages env st dest (p1 ++ p2) = (ops, some e) := by
  induction p1 generalizing ops with
  | nil => simp [runPages] at h
  | cons p rest ih =>
      rw [List.cons_append]
      simp only [runPages] at h ⊢
      rcases hp : processPage env st dest p.1 p.2 with ⟨ops0, e0⟩
      rw [hp] at h
      cases e0 with
      | some e2 => exact h
      | none =>
          simp only at h ⊢
          rcases hr : runPages env st dest rest with ⟨ops1, e1⟩
          rw [hr] at h
          obtain ⟨hops, he⟩ := Prod.mk.injEq .. ▸ h
          cases e1 with
          | none => exact absurd he (by simp)
          | some e2 =>
              have he2 : e2 = e := by simpa using he
              rw [ih ops1 (he2 ▸ hr)]
              simp [← hops]

/-- C2: `generate` first removes the destination when it exists and
recreates it from the template directory, then processes pages in manifest
order; when a page fails after a successful prefix, the trace contains the
cleanup, the template copy, the inserts of the pages before the failure and
the partial effects of the failing page, nothing for the later pages, and
the error aborts the call (no examples copy happens). -/
theorem claim2_partial_population (env : Env) (st : GenState)
    (destExists : Bool) (dest tmpl : String)
    (q1 p2 : List (String × PyVal)) (qbad : String × PyVal)
    (ops0 opsb : List FsOp) (e : PyError)
    (htmpl : st.template_dir = some tmpl) (htne : (tmpl == "") = false)
    (hpages : st.pages = q1 ++ qbad :: p2)
    (hok : runPages env st dest q1 = (ops0, none))
    (hbad : processPage env st dest qbad.1 qbad.2 = (opsb, some e)) :
    generate env st destExists dest =
      (st,
       (if destExists then [FsOp.rmtree dest] else []) ++
         [FsOp.copytree tmpl dest] ++ ops0 ++ opsb,
       some e) := by
  have hrun : runPages env st dest (q1 ++ qbad :: p2) = (ops0 ++ opsb, some e) := by
    have hb : runPages env st dest (qbad :: p2) = (opsb, some e) := by
      simp only [runPages, hbad]
    rw [runPages_append_ok env st dest q1 (qbad :: p2) ops0 hok, hb]
  unfold generate
  rw [htmpl, hpages, hrun]
  simp [htne, List.append_assoc]

/-- Witness for C2: a two-page prefix whose first page succeeds (an empty
list) and whose second page fails on an unresolvable symbol; the third
page is never processed and its insert does not appear. -/
theorem claim2_partial_population_witness :
    generate envTriv
      { stOfPages
          [("ok.md", .plist []),
           ("bad.md", .plist [.pstr "x"]),
           ("later.md", .plist [])] with
        template_dir := some "tmpl" }
      true "dest" =
      ({ stOfPages
           [("ok.md", .plist []),
            ("bad.md", .plist [.pstr "x"]),
            ("later.md", .plist [])] with
         template_dir := some "tmpl" },
       [FsOp.rmtree "dest", FsOp.copytree "tmpl" "dest",
        FsOp.insert "" "dest/ok.md" "autogenerated"],
       some (.importError "x")) :=
  claim2_partial_population envTriv _ true "dest" "tmpl"
    [("ok.md", .plist [])] [("later.md", .plist [])]
    ("bad.md", .plist [.pstr "x"])
    [FsOp.insert "" "dest/ok.md" "autogenerated"] [] (.importError "x")
    rfl rfl rfl rfl rfl

/-- Boolean `isinstance(v, str)`. -/
def isStrB : PyVal → Bool
  | .pstr _ => true
  | _ => false

/-- A concrete environment resolving one dotted path to a property and one
to a method, for instantiating the override theorems. -/
def envResolved : Env :=
  { envTriv with
    resolve := fun s =>
      if s == "pkg.mod.Cls.x" then
        .ok (.prop { name := "x", doc := none, hints := [] })
      else if s == "pkg.mod.Cls.m" then
        .ok (.method { name := "m", doc := none, hints := [] })
      else .error (.importError s) }

/-- C3 (counterexample): a dotted path resolving to a property gets the
two-segment display override `Cls.x`, not the full dotted path
`pkg.mod.Cls.x` the claim promises for properties. -/
theorem claim3_counterexample :
    resolveElement envResolved (.pstr "pkg.mod.Cls.x") =
      .ok (.pobj (.prop { name := "x", doc := none, hints := [] }), some "Cls.x")
    ∧ "Cls.x" ≠ "pkg.mod.Cls.x" := by
  constructor
  · rfl
  · decide

/-- C3 (amended): for a dotted-path string element, methods and also
properties get the two-segment override built from the last two path
segments, while plain accessors (functions and classes) use the full
dotted path as given; non-string elements get no override at all. -/
theorem claim3_override (env : Env) (s : String) (o : PyObject) (v : PyVal)
    (h : env.resolve s = .ok o) (hv : isStrB v = false) :
    resolveElement env (.pstr s) =
      .ok (.pobj o, some (
        if ismethodB o || ispropertyB o then
          String.intercalate "." ((splitDot s).drop ((splitDot s).length - 2))
        else s))
    ∧ resolveElement env v = .ok (v, none) := by
  constructor
  · simp only [resolveElement, h]
  · cases v <;> simp_all [resolveElement, isStrB]

/-- Witness for C3 (amended): a method path gets `Cls.m`, an int element
gets no override. -/
theorem claim3_override_witness :
    resolveElement envResolved (.pstr "pkg.mod.Cls.m") =
      .ok (.pobj (.method { name := "m", doc := none, hints := [] }),
        some (
          if ismethodB (.method { name := "m", doc := none, hints := [] }) ||
              ispropertyB (.method { name := "m", doc := none, hints := [] }) then
            String.intercalate "."
              ((splitDot "pkg.mod.Cls.m").drop ((splitDot "pkg.mod.Cls.m").length - 2))
          else "pkg.mod.Cls.m"))
    ∧ resolveElement envResolved (.pint 3) = .ok (.pint 3, none) :=
  claim3_override envResolved "pkg.mod.Cls.m"
    (.method { name := "m", doc := none, hints := [] }) (.pint 3) rfl rfl

/-- C4: `generate` never assigns `self.class_aliases` (or any other
attribute), so after every `generate` call the class-alias mapping equals
the mapping freshly derived from the construction-time configuration by
`_fill_aliases`; there is no persistence beyond the configuration. -/
theorem claim4_aliases_fresh (env : Env) (cfg : Config) (st : GenState)
    (destExists : Bool) (dest : String)
    (hinit : DocumentationGenerator.init env cfg = .ok st) :
    (generate env st destExists dest).1.class_aliases = st.class_aliases
    ∧ fill_aliases env cfg.pages cfg.extra_aliases =
        .ok ((generate env st destExists dest).1.class_aliases) := by
  have hgen : (generate env st destExists dest).1 = st := rfl
  refine ⟨by rw [hgen], ?_⟩
  rw [hgen]
  unfold DocumentationGenerator.init at hinit
  rcases hfa : fill_aliases env cfg.pages cfg.extra_aliases with e | al
  · rw [hfa] at hinit
    exact Except.noConfusion hinit
  · rw [hfa] at hinit
    have h3 := Except.ok.inj hinit
    rw [← h3]

/-- Witness for C4 at the empty configuration. -/
theorem claim4_aliases_fresh_witness :
    (generate envTriv (stOfPages []) false "dest").1.class_aliases =
      (stOfPages []).class_aliases
    ∧ fill_aliases envTriv [] .pnone =
        .ok ((generate envTriv (stOfPages []) false "dest").1.class_aliases) :=
  claim4_aliases_fresh envTriv
    { pages := []
      project_url := none
      template_dir := none
      examples_dir := none
      extra_aliases := .pnone
      max_signature_line_length := 110
      titles_size := "###" }
    (stOfPages []) false "dest" rfl

lemma find?_map_update (d : List (String × PyVal)) (k : String) (v : PyVal)
    (h : (d.find? (fun kv => kv.1 == k)).isSome = true) :
    (d.map (fun kv => if kv.1 == k then (k, v) else kv)).find?
      (fun kv => kv.1 == k) = some (k, v) := by
  induction d with
  | nil => simp at h
  | cons a rest ih =>
      by_cases ha : a.1 = k
      · have hb : (a.1 == k) = true := by simp [ha]
        rw [List.map_cons, if_pos hb, List.find?_cons_of_pos _ (by simp)]
      · have hb : (a.1 == k) = false := by simp [ha]
        rw [List.find?_cons_of_neg _ (by simp [hb])] at h
        rw [List.map_cons, if_neg (by simp [hb]),
          List.find?_cons_of_neg _ (by simp [hb])]
        exact ih h

lemma find?_map_update_ne (d : List (String × PyVal)) (k k2 : String)
    (v : PyVal) (h : k2 ≠ k) :
    (d.map (fun kv => if kv.1 == k then (k, v) else kv)).find?
      (fun kv => kv.1 == k2) = d.find? (fun kv => kv.1 == k2) := by
  induction d with
  | nil => simp
  | cons a rest ih =>
      by_cases ha : a.1 = k
      · have hb : (a.1 == k) = true := by simp [ha]
        have hk2 : ¬((k, v).1 == k2) = true := by
          simp
          exact fun hc => h hc.symm
        have ha2 : ¬(a.1 == k2) = true := by
          simp [ha]
          exact fun hc => h hc.symm
        rw [List.map_cons, if_pos hb,
          @List.find?_cons_of_neg _ (fun kv => kv.1 == k2) (k, v) _ hk2,
          @List.find?_cons_of_neg _ (fun kv => kv.1 == k2) a _ ha2]
        exact ih
      · have hb : (a.1 == k) = false := by simp [ha]
        rw [List.map_cons, if_neg (by simp [hb])]
        by_cases hc : a.1 = k2
        · rw [List.find?_cons_of_pos _ (by simp [hc]),
            List.find?_cons_of_pos _ (by simp [hc])]
        · rw [List.find?_cons_of_neg _ (by simp [hc]),
            List.find?_cons_of_neg _ (by simp [hc])]
          exact ih

lemma dictLookup_dictInsert_self (d : List (String × PyVal)) (k : String)
    (v : PyVal) : dictLookup (dictInsert d k v) k = some v := by
  unfold dictInsert dictLookup
  by_cases h : (d.find? (fun kv => kv.1 == k)).isSome
  · rw [if_pos h, find?_map_update d k v h]
    rfl
  · rw [if_neg h, List.find?_append]
    have hnone : d.find? (fun kv => kv.1 == k) = none :=
      Option.not_isSome_iff_eq_none.mp h
    simp [hnone]

lemma dictLookup_dictInsert_ne (d : List (String × PyVal)) (k k2 : String)
    (v : PyVal) (h : k2 ≠ k) :
    dictLookup (dictInsert d k v) k2 = dictLookup d k2 := by
  unfold dictInsert dictLookup
  by_cases hs : (d.find? (fun kv => kv.1 == k)).isSome
  · rw [if_pos hs, find?_map_update_ne d k k2 v h]
  · rw [if_neg hs, List.find?_append]
    have hk : (k == k2) = false := by
      simp
      exact fun hc => h hc.symm
    simp [hk]

/-- The value a sequence of Python dict assignments leaves at key `k`: the
value of the last pair of `d` with that key, if any. -/
def lookupLast (d : List (String × PyVal)) (k : String) : Option PyVal :=
  match d with
  | [] => none
  | kv :: rest =>
      match lookupLast rest k with
      | some v => some v
      | none => if kv.1 == k then some kv.2 else none

lemma dictLookup_dictUpdate_none (ex : List (String × PyVal))
    (al : List (String × PyVal)) (k : String)
    (h : lookupLast ex k = none) :
    dictLookup (dictUpdate al ex) k = dictLookup al k := by
  induction ex generalizing al with
  | nil => rfl
  | cons kv rest ih =>
      unfold lookupLast at h
      cases hr : lookupLast rest k with
      | some v => rw [hr] at h; exact Option.noConfusion h
      | none =>
          rw [hr] at h
          by_cases hk : kv.1 = k
          · rw [if_pos (by simp [hk])] at h
            exact Option.noConfusion h
          · unfold dictUpdate
            rw [ih (dictInsert al kv.1 kv.2) hr]
            exact dictLookup_dictInsert_ne al kv.1 k kv.2 (fun hc => hk hc.symm)

lemma dictLookup_dictUpdate_some (ex : List (String × PyVal))
    (al : List (String × PyVal)) (k : String) (v : PyVal)
    (h : lookupLast ex k = some v) :
    dictLookup (dictUpdate al ex) k = some v := by
  induction ex generalizing al with
  | nil => exact Option.noConfusion h
  | cons kv rest ih =>
      unfold lookupLast at h
      cases hr : lookupLast rest k with
      | some v2 =>
          rw [hr] at h
          have hv : v2 = v := Option.some.inj h
          unfold dictUpdate
          exact ih (dictInsert al kv.1 kv.2) (hv ▸ hr)
      | none =>
          rw [hr] at h
          by_cases hk : kv.1 = k
          · rw [if_pos (by simp [hk])] at h
            have hv : kv.2 = v := Option.some.inj h
            unfold dictUpdate
            rw [dictLookup_dictUpdate_none rest (dictInsert al kv.1 kv.2) k hr,
              hk, hv]
            exact dictLookup_dictInsert_self al k v
          · rw [if_neg (by simp [hk])] at h
            exact Option.noConfusion h

lemma fillFromElements_keeps (env : Env) (es : List PyVal)
    (al al2 : List (String × PyVal)) (k : String)
    (h : fillFromElements env al es = .ok al2)
    (hk : (dictLookup al k).isSome = true) :
    (dictLookup al2 k).isSome = true := by
  induction es generalizing al with
  | nil =>
      unfold fillFromElements at h
      rw [← Except.ok.inj h]
      exact hk
  | cons e rest ih =>
      unfold fillFromElements at h
      cases hio : import_object env e with
      | error er => rw [hio] at h; exact Except.noConfusion h
      | ok obj =>
          rw [hio] at h
          cases obj with
          | pobj o =>
              cases o with
              | cls c =>
                  refine ih (dictInsert al (env.get_dotted_path (.cls c)) e) h ?_
                  by_cases hkk : k = env.get_dotted_path (.cls c)
                  · rw [hkk, dictLookup_dictInsert_self]
                    rfl
                  · rw [dictLookup_dictInsert_ne _ _ _ _ hkk]
                    exact hk
              | func f => exact ih al h hk
              | method f => exact ih al h hk
              | prop f => exact ih al h hk
          | pnone => exact ih al h hk
          | pint n => exact ih al h hk
          | pstr s => exact ih al h hk
          | plist l => exact ih al h hk
          | pdict d => exact ih al h hk

lemma fillFromElements_mem (env : Env) (es : List PyVal)
    (al al2 : List (String × PyVal)) (e : PyVal) (c : ClassData)
    (h : fillFromElements env al es = .ok al2)
    (he : e ∈ es)
    (hc : import_object env e = .ok (.pobj (.cls c))) :
    (dictLookup al2 (env.get_dotted_path (.cls c))).isSome = true := by
  induction es generalizing al with
  | nil => exact absurd he (List.not_mem_nil e)
  | cons e0 rest ih =>
      unfold fillFromElements at h
      rcases List.mem_cons.mp he with he0 | hrest
      · subst he0
        rw [hc] at h
        exact fillFromElements_keeps env rest _ al2 _ h
          (by rw [dictLookup_dictInsert_self]; rfl)
      · cases hio : import_object env e0 with
        | error er => rw [hio] at h; exact Except.noConfusion h
        | ok obj =>
            rw [hio] at h
            cases obj with
            | pobj o =>
                cases o with
                | cls c2 => exact ih _ h hrest
                | func f => exact ih al h hrest
                | method f => exact ih al h hrest
                | prop f => exact ih al h hrest
            | pnone => exact ih al h hrest
            | pint n => exact ih al h hrest
            | pstr s => exact ih al h hrest
            | plist l => exact ih al h hrest
            | pdict d => exact ih al h hrest

lemma fillFromElements_src (env : Env) (es : List PyVal)
    (al al2 : List (String × PyVal)) (k : String) (v : PyVal)
    (h : fillFromElements env al es = .ok al2)
    (hv : dictLookup al2 k = some v) :
    dictLookup al k = some v ∨
      (v ∈ es ∧ ∃ c, import_object env v = .ok (.pobj (.cls c)) ∧
        env.get_dotted_path (.cls c) = k) := by
  induction es generalizing al with
  | nil =>
      unfold fillFromElements at h
      rw [← Except.ok.inj h] at hv
      exact Or.inl hv
  | cons e rest ih =>
      unfold fillFromElements at h
      cases hio : import_object env e with
      | error er => rw [hio] at h; exact Except.noConfusion h
      | ok obj =>
          rw [hio] at h
          have step :
              ∀ al1 : List (String × PyVal),
                fillFromElements env al1 rest = .ok al2 →
                dictLookup al1 k = some v ∨
                  (v ∈ e :: rest ∧ ∃ c,
                    import_object env v = .ok (.pobj (.cls c)) ∧
                    env.get_dotted_path (.cls c) = k) := by
            intro al1 h1
            rcases ih al1 h1 with hl | ⟨hm, c2, hi2, hk2⟩
            · exact Or.inl hl
            · exact Or.inr ⟨List.mem_cons_of_mem e hm, c2, hi2, hk2⟩
          cases obj with
          | pobj o =>
              cases o with
              | cls c =>
                  rcases step (dictInsert al (env.get_dotted_path (.cls c)) e) h
                    with hl | hr
                  · by_cases hkk : k = env.get_dotted_path (.cls c)
                    · subst hkk
                      rw [dictLookup_dictInsert_self] at hl
                      refine Or.inr ⟨?_, c, ?_, rfl⟩
                      · rw [← Option.some.inj hl]
                        exact List.mem_cons_self e rest
                      · rw [← Option.some.inj hl]
                        exact hio
                    · rw [dictLookup_dictInsert_ne _ _ _ _ hkk] at hl
                      exact Or.inl hl
                  · exact Or.inr hr
              | func f => exact step al h
              | method f => exact step al h
              | prop f => exact step al h
          | pnone => exact step al h
          | pint n => exact step al h
          | pstr s => exact step al h
          | plist l => exact step al h
          | pdict d => exact step al h

lemma fillFromPages_keeps (env : Env) (ps : List (String × PyVal))
    (al al2 : List (String × PyVal)) (k : String)
    (h : fillFromPages env al ps = .ok al2)
    (hk : (dictLookup al k).isSome = true) :
    (dictLookup al2 k).isSome = true := by
  induction ps generalizing al with
  | nil =>
      unfold fillFromPages at h
      rw [← Except.ok.inj h]
      exact hk
  | cons p rest ih =>
      unfold fillFromPages at h
      split at h
      · exact Except.noConfusion h
      · split at h
        · exact Except.noConfusion h
        · next al1 heq =>
            exact ih al1 h (fillFromElements_keeps env _ al al1 k heq hk)

lemma fillFromPages_mem (env : Env) (ps : List (String × PyVal))
    (al al2 : List (String × PyVal)) (p : String × PyVal)
    (les : List PyVal) (e : PyVal) (c : ClassData)
    (h : fillFromPages env al ps = .ok al2)
    (hp : p ∈ ps)
    (hles : collectListElements p.2 = .ok les)
    (he : e ∈ les)
    (hc : import_object env e = .ok (.pobj (.cls c))) :
    (dictLookup al2 (env.get_dotted_path (.cls c))).isSome = true := by
  induction ps generalizing al with
  | nil => exact absurd hp (List.not_mem_nil p)
  | cons p0 rest ih =>
      unfold fillFromPages at h
      split at h
      · exact Except.noConfusion h
      · next les0 hcol =>
          split at h
          · exact Except.noConfusion h
          · next al1 heq =>
              rcases List.mem_cons.mp hp with hp0 | hprest
              · subst hp0
                have hleq : les0 = les := Except.ok.inj (hles.symm.trans hcol).symm
                subst hleq
                exact fillFromPages_keeps env rest al1 al2 _ h
                  (fillFromElements_mem env les0 al al1 e c heq he hc)
              · exact ih al1 h hprest

lemma fillFromPages_src (env : Env) (ps : List (String × PyVal))
    (al al2 : List (String × PyVal)) (k : String) (v : PyVal)
    (h : fillFromPages env al ps = .ok al2)
    (hv : dictLookup al2 k = some v) :
    dictLookup al k = some v ∨
      ∃ p, p ∈ ps ∧ ∃ les, collectListElements p.2 = .ok les ∧ v ∈ les ∧
        ∃ c, import_object env v = .ok (.pobj (.cls c)) ∧
          env.get_dotted_path (.cls c) = k := by
  induction ps generalizing al with
  | nil =>
      unfold fillFromPages at h
      rw [← Except.ok.inj h] at hv
      exact Or.inl hv
  | cons p0 rest ih =>
      unfold fillFromPages at h
      split at h
      · exact Except.noConfusion h
      · next les0 hcol =>
          split at h
          · exact Except.noConfusion h
          · next al1 heq =>
              rcases ih al1 h with hl | ⟨p, hp, les, hles, hm, c, hi, hk⟩
              · rcases fillFromElements_src env les0 al al1 k v heq hl
                  with hl2 | ⟨hm2, c2, hi2, hk2⟩
                · exact Or.inl hl2
                · exact Or.inr ⟨p0, List.mem_cons_self p0 rest, les0, hcol,
                    hm2, c2, hi2, hk2⟩
              · exact Or.inr ⟨p, List.mem_cons_of_mem p0 hp, les, hles,
                  hm, c, hi, hk⟩

lemma import_object_pstr_cls (env : Env) (s : String) (c : ClassData)
    (h : import_object env (.pstr s) = .ok (.pobj (.cls c))) :
    env.resolve s = .ok (.cls c) := by
  simp only [import_object] at h
  cases hr : env.resolve s with
  | error er => rw [hr] at h; simp [Except.map] at h
  | ok o =>
      rw [hr] at h
      simp [Except.map] at h
      rw [h]

/-- C5: for a manifest whose flattened elements are dotted-path strings,
the alias table records an entry for exactly those referenced symbols that
resolve to classes, keyed by the canonical dotted path with the original
reference string as value (flattening one level of tag mapping); extra
aliases supplied as a mapping are merged last and override any
manifest-derived entry for the same canonical path. -/
theorem claim5_alias_table (env : Env) (pages : List (String × PyVal))
    (extraD : List (String × PyVal)) (mAl : List (String × PyVal))
    (hm : fillFromPages env [] pages = .ok mAl)
    (hflat : ∀ p, p ∈ pages → ∃ l, collectListElements p.2 = .ok l ∧
       ∀ e, e ∈ l → ∃ s, e = PyVal.pstr s) :
    fill_aliases env pages (.pdict extraD) = .ok (dictUpdate mAl extraD)
    ∧ (∀ k v, lookupLast extraD k = some v →
        dictLookup (dictUpdate mAl extraD) k = some v)
    ∧ (∀ k, lookupLast extraD k = none →
        dictLookup (dictUpdate mAl extraD) k = dictLookup mAl k)
    ∧ (∀ k v, dictLookup mAl k = some v →
        ∃ p, p ∈ pages ∧ ∃ les, collectListElements p.2 = .ok les ∧ v ∈ les ∧
          ∃ s c, v = PyVal.pstr s ∧ env.resolve s = .ok (.cls c) ∧
            env.get_dotted_path (.cls c) = k)
    ∧ (∀ p les e s c, p ∈ pages → collectListElements p.2 = .ok les →
        e ∈ les → e = PyVal.pstr s → env.resolve s = .ok (.cls c) →
        (dictLookup mAl (env.get_dotted_path (.cls c))).isSome = true) := by
  refine ⟨?_, ?_, ?_, ?_, ?_⟩
  · unfold fill_aliases
    rw [hm]
  · intro k v hk
    exact dictLookup_dictUpdate_some extraD mAl k v hk
  · intro k hk
    exact dictLookup_dictUpdate_none extraD mAl k hk
  · intro k v hv
    rcases fillFromPages_src env pages [] mAl k v hm hv with hl | hr
    · exact Option.noConfusion hl
    · rcases hr with ⟨p, hp, les, hles, hmem, c, hio, hk⟩
      rcases hflat p hp with ⟨l, hl, hstr⟩
      have hleq : l = les := Except.ok.inj (hl.symm.trans hles)
      subst hleq
      rcases hstr v hmem with ⟨s, rfl⟩
      exact ⟨p, hp, l, hles, hmem, s, c,
        rfl, import_object_pstr_cls env s c hio, hk⟩
  · intro p les e s c hp hles he hes hre
    refine fillFromPages_mem env pages [] mAl p les e c hm hp hles he ?_
    rw [hes]
    simp only [import_object]
    rw [hre]
    rfl

/-- A concrete environment for the alias-table witness: one class at path
`m.A` with canonical dotted path prefixed by `mod.`. -/
def envC5 : Env :=
  { envTriv with
    resolve := fun s =>
      if s == "m.A" then
        .ok (.cls { name := "A", doc := none, clsHints := [], initHints := [] })
      else .error (.importError s)
    get_dotted_path := fun o => "mod." ++ pyName o }

/-- Witness for C5 at a one-page manifest and a one-entry extra mapping. -/
theorem claim5_alias_table_witness :
    fill_aliases envC5 [("a.md", .plist [.pstr "m.A"])]
      (.pdict [("tf.B", .pstr "alias.B")]) =
      .ok (dictUpdate [("mod.A", .pstr "m.A")] [("tf.B", .pstr "alias.B")]) :=
  (claim5_alias_table envC5 [("a.md", .plist [.pstr "m.A"])]
    [("tf.B", .pstr "alias.B")] [("mod.A", .pstr "m.A")] rfl
    (by
      intro p hp
      rcases List.mem_singleton.mp hp with rfl
      refine ⟨[.pstr "m.A"], rfl, ?_⟩
      intro e he
      rcases List.mem_singleton.mp he with rfl
      exact ⟨"m.A", rfl⟩)).1

/-- Concatenation of rendered blocks in document order, as the
`markdown_text` accumulation of `_render_list_and_insert` produces it. -/
def strConcat : List String → String
  | [] => ""
  | s :: rest => s ++ strConcat rest

/-- The block rendered for each element of a list, in list order. -/
def renderAll (env : Env) (st : GenState) : List PyVal → Except PyError (List String)
  | [] => .ok []
  | e :: rest =>
      match render env st e with
      | .error er => .error er
      | .ok t =>
          match renderAll env st rest with
          | .error er => .error er
          | .ok ts => .ok (t :: ts)

lemma renderListText_concat (env : Env) (st : GenState) (l : List PyVal)
    (rs : List String) (acc : String)
    (h : renderAll env st l = .ok rs) :
    renderListText env st acc l = .ok (acc ++ strConcat rs) := by
  induction l generalizing acc rs with
  | nil =>
      unfold renderAll at h
      rw [← Except.ok.inj h]
      simp [renderListText, strConcat]
  | cons e rest ih =>
      unfold renderAll at h
      cases hr : render env st e with
      | error er => rw [hr] at h; exact Except.noConfusion h
      | ok t =>
          rw [hr] at h
          split at h
          · next er heq => exact Except.noConfusion heq
          · next t2 heq =>
              have ht2 : t = t2 := Except.ok.inj heq
              split at h
              · exact Except.noConfusion h
              · next ts hts =>
                  rw [← Except.ok.inj h]
                  have hstep : renderListText env st acc (e :: rest) =
                      renderListText env st (acc ++ t) rest := by
                    simp only [renderListText, hr]
                  rw [hstep, ih ts (acc ++ t) hts, ← ht2]
                  simp [strConcat, String.append_assoc]

/-- C6: a list-valued page is rendered symbol by symbol in order and the
concatenation is inserted once at the default tag `autogenerated`; a
mapping-valued page renders each tag's list separately and inserts it at
that named tag. -/
theorem claim6_tag_insertion (env : Env) (st : GenState)
    (dest fp path tag : String) (l gl : List PyVal) (rs rs2 : List String)
    (rest : List (String × PyVal))
    (h1 : renderAll env st l = .ok rs)
    (h2 : renderAll env st gl = .ok rs2) :
    processPage env st dest fp (.plist l) =
      ([FsOp.insert (strConcat rs) (dest ++ "/" ++ fp) "autogenerated"], none)
    ∧ processTags env st path ((tag, .plist gl) :: rest) =
        (FsOp.insert (strConcat rs2) path tag :: (processTags env st path rest).1,
         (processTags env st path rest).2) := by
  have hrl := renderListText_concat env st l rs "" h1
  have hrl2 := renderListText_concat env st gl rs2 "" h2
  rw [String.empty_append] at hrl hrl2
  constructor
  · simp only [processPage, render_list_and_insert]
    rw [hrl]
  · simp only [processTags, render_list_and_insert]
    rw [hrl2]
    rfl

/-- Witness for C6 at a one-element page list and a one-tag mapping over
the trivial environment (the unresolvable element renders as an error for
a string, so the witness uses live function objects). -/
theorem claim6_tag_insertion_witness :
    processPage envTriv (stOfPages []) "dest" "a.md" (.plist []) =
      ([FsOp.insert (strConcat []) ("dest" ++ "/" ++ "a.md") "autogenerated"], none)
    ∧ processTags envTriv (stOfPages []) "dest/b.md" [("custom", .plist [])] =
        (FsOp.insert (strConcat []) "dest/b.md" "custom" ::
          (processTags envTriv (stOfPages []) "dest/b.md" []).1,
         (processTags envTriv (stOfPages []) "dest/b.md" []).2) :=
  claim6_tag_insertion envTriv (stOfPages []) "dest" "a.md" "dest/b.md" "custom"
    [] [] [] [] [] rfl rfl

/-- C7: a property yields no signature code-snippet sub-block, only a
heading named after its getter (plus the optional source link and optional
docstring); every non-property object's block contains the signature code
snippet. -/
theorem claim7_property_no_signature (env : Env) (st : GenState) (f : FuncData)
    (o : PyObject) (ov ov2 : Option String) (hnp : ispropertyB o = false) :
    renderSubblocks env st (.prop f) ov =
      (match st.project_url with
       | some u => [env.make_source_link (.func f) u]
       | none => []) ++
      [st.titles_size ++ " " ++ f.name ++ "\n"] ++
      (match f.doc with
       | some ds =>
           if ds == "" then []
           else [env.process_docstring_ext ds f.hints st.class_aliases]
       | none => [])
    ∧ env.code_snippet (env.get_signature o ov2 st.max_signature_line_length)
        ∈ renderSubblocks env st o ov2 := by
  constructor
  · rfl
  · cases o with
    | prop f2 => simp [ispropertyB] at hnp
    | func f2 => simp [renderSubblocks, List.mem_append]
    | method f2 => simp [renderSubblocks, List.mem_append]
    | cls c2 => simp [renderSubblocks, List.mem_append]

/-- Witness for C7 at a concrete property and a concrete function. -/
theorem claim7_property_no_signature_witness :
    envTriv.code_snippet
        (envTriv.get_signature (.func { name := "g", doc := none, hints := [] })
          none (stOfPages []).max_signature_line_length)
      ∈ renderSubblocks envTriv (stOfPages [])
          (.func { name := "g", doc := none, hints := [] }) none :=
  (claim7_property_no_signature envTriv (stOfPages [])
    { name := "x", doc := none, hints := [] }
    (.func { name := "g", doc := none, hints := [] }) none none rfl).2

/-- C8: every rendered block joins its sub-blocks with blank lines,
contains a heading made of the configured title marker, a single space and
the symbol's short name (the getter's name for a property), and is
terminated by a horizontal rule. -/
theorem claim8_block_shape (env : Env) (st : GenState) (o : PyObject)
    (ov : Option String) :
    render_from_object env st o ov =
      String.intercalate "\n\n" (renderSubblocks env st o ov) ++ "\n\n----\n\n"
    ∧ (st.titles_size ++ " " ++ pyName (pyEffective o) ++ "\n")
        ∈ renderSubblocks env st o ov
    ∧ strEndsWith (render_from_object env st o ov) "\n\n----\n\n" = true := by
  refine ⟨rfl, ?_,
    strEndsWith_append
      (String.intercalate "\n\n" (renderSubblocks env st o ov)) "\n\n----\n\n"⟩
  cases o <;> simp [renderSubblocks, pyEffective, pyName, List.mem_append]

/-- C9: when the resolved object (the getter for a property) has no truthy
docstring, the rendered sub-blocks contain no processed-docstring block,
and the output does not depend on the docstring processor at all (the
caller checks for absence before invoking it). -/
theorem claim9_no_docstring (env : Env) (st : GenState) (o : PyObject)
    (ov : Option String)
    (g : String → List (String × String) → List (String × PyVal) → String)
    (hd : optStrTruthy (getdoc (pyEffective o)) = false) :
    renderSubblocks env st o ov =
      (match st.project_url with
       | some u => [env.make_source_link (pyEffective o) u]
       | none => []) ++
      (match o with
       | .prop f => [st.titles_size ++ " " ++ f.name ++ "\n"]
       | _ => [st.titles_size ++ " " ++ pyName o ++ "\n",
              env.code_snippet (env.get_signature o ov st.max_signature_line_length)])
    ∧ render_from_object { env with process_docstring_ext := g } st o ov =
        render_from_object env st o ov := by
  have hblocks :
      ∀ env2 : Env, env2.resolve = env.resolve →
        env2.get_signature = env.get_signature →
        env2.make_source_link = env.make_source_link →
        env2.code_snippet = env.code_snippet →
        renderSubblocks env2 st o ov =
          (match st.project_url with
           | some u => [env.make_source_link (pyEffective o) u]
           | none => []) ++
          (match o with
           | .prop f => [st.titles_size ++ " " ++ f.name ++ "\n"]
           | _ => [st.titles_size ++ " " ++ pyName o ++ "\n",
                  env.code_snippet
                    (env.get_signature o ov st.max_signature_line_length)]) := by
    intro env2 h1 h2 h3 h4
    cases o with
    | func f =>
        cases hdoc : f.doc with
        | none =>
            simp [renderSubblocks, pyEffective, getdoc, pyName, hdoc, h2, h3, h4]
        | some ds =>
            simp [pyEffective, getdoc, hdoc, optStrTruthy] at hd
            simp [renderSubblocks, pyEffective, getdoc, pyName, hdoc, hd,
              h2, h3, h4]
    | method f =>
        cases hdoc : f.doc with
        | none =>
            simp [renderSubblocks, pyEffective, getdoc, pyName, hdoc, h2, h3, h4]
        | some ds =>
            simp [pyEffective, getdoc, hdoc, optStrTruthy] at hd
            simp [renderSubblocks, pyEffective, getdoc, pyName, hdoc, hd,
              h2, h3, h4]
    | cls c =>
        cases hdoc : c.doc with
        | none =>
            simp [renderSubblocks, pyEffective, getdoc, pyName, hdoc, h2, h3, h4]
        | some ds =>
            simp [pyEffective, getdoc, hdoc, optStrTruthy] at hd
            simp [renderSubblocks, pyEffective, getdoc, pyName, hdoc, hd,
              h2, h3, h4]
    | prop f =>
        cases hdoc : f.doc with
        | none =>
            simp [renderSubblocks, pyEffective, getdoc, pyName, hdoc, h2, h3, h4]
        | some ds =>
            simp [pyEffective, getdoc, hdoc, optStrTruthy] at hd
            simp [renderSubblocks, pyEffective, getdoc, pyName, hdoc, hd,
              h2, h3, h4]
  have hmain := hblocks env rfl rfl rfl rfl
  have hg := hblocks { env with process_docstring_ext := g } rfl rfl rfl rfl
  refine ⟨hmain, ?_⟩
  unfold render_from_object
  rw [hmain, hg]

/-- Witness for C9: with no docstring present, replacing the docstring
processor does not change the output. -/
theorem claim9_no_docstring_witness :
    render_from_object
        { envTriv with process_docstring_ext := fun _ _ _ => "CHANGED" }
        (stOfPages []) (.func { name := "f", doc := none, hints := [] }) none =
      render_from_object envTriv (stOfPages [])
        (.func { name := "f", doc := none, hints := [] }) none :=
  (claim9_no_docstring envTriv (stOfPages [])
    (.func { name := "f", doc := none, hints := [] }) none
    (fun _ _ _ => "CHANGED") rfl).2

/-- C10: for a class with a truthy docstring, the type-hint mapping handed
to the docstring processor is the hints of the class's `__init__` method,
not the hints of the class object itself; for a non-class callable it is
the hints of the object itself. -/
theorem claim10_init_hints (env : Env) (st : GenState) (ov : Option String)
    (c : ClassData) (f m : FuncData) (ds ds2 ds3 : String)
    (hc : c.doc = some ds) (hcne : (ds == "") = false)
    (hf : f.doc = some ds2) (hfne : (ds2 == "") = false)
    (hm : m.doc = some ds3) (hmne : (ds3 == "") = false) :
    renderSubblocks env st (.cls c) ov =
      (match st.project_url with
       | some u => [env.make_source_link (.cls c) u]
       | none => []) ++
      [st.titles_size ++ " " ++ c.name ++ "\n",
       env.code_snippet (env.get_signature (.cls c) ov st.max_signature_line_length),
       env.process_docstring_ext ds c.initHints st.class_aliases]
    ∧ renderSubblocks env st (.func f) ov =
      (match st.project_url with
       | some u => [env.make_source_link (.func f) u]
       | none => []) ++
      [st.titles_size ++ " " ++ f.name ++ "\n",
       env.code_snippet (env.get_signature (.func f) ov st.max_signature_line_length),
       env.process_docstring_ext ds2 f.hints st.class_aliases]
    ∧ renderSubblocks env st (.method m) ov =
      (match st.project_url with
       | some u => [env.make_source_link (.method m) u]
       | none => []) ++
      [st.titles_size ++ " " ++ m.name ++ "\n",
       env.code_snippet (env.get_signature (.method m) ov st.max_signature_line_length),
       env.process_docstring_ext ds3 m.hints st.class_aliases] := by
  refine ⟨?_, ?_, ?_⟩
  · simp [renderSubblocks, pyEffective, getdoc, pyName, hc, hcne]
  · simp [renderSubblocks, pyEffective, getdoc, pyName, hf, hfne]
  · simp [renderSubblocks, pyEffective, getdoc, pyName, hm, hmne]

/-- Witness for C10 at a concrete class whose class-level hints and
`__init__` hints differ: the `__init__` hints are the ones passed on. -/
theorem claim10_init_hints_witness :
    renderSubblocks envTriv (stOfPages [])
      (.cls { name := "C", doc := some "dc", clsHints := [("a", "A")],
              initHints := [("b", "B")] }) none =
      [] ++
      ["### C\n",
       envTriv.code_snippet (envTriv.get_signature
         (.cls { name := "C", doc := some "dc", clsHints := [("a", "A")],
                 initHints := [("b", "B")] }) none 110),
       envTriv.process_docstring_ext "dc" [("b", "B")] []] :=
  (claim10_init_hints envTriv (stOfPages []) none
    { name := "C", doc := some "dc", clsHints := [("a", "A")],
      initHints := [("b", "B")] }
    { name := "f", doc := some "df", hints := [] }
    { name := "m", doc := some "dm", hints := [] }
    "dc" "df" "dm" rfl rfl rfl rfl rfl rfl).1
